import Mathlib

set_option maxHeartbeats 1000000

/-!
Shallow embedding of `src/main.py` of the gcode2as/duplex repository.

The file under `src/` is the CLI driver: it resolves configuration from
CLI flags, `options.ini`, a located `input_parameters.txt` and built-in
defaults, validates the mode, invokes the selected mode's `execute`, writes
the generated program and post-processes it (`remove_semicolon_lines`).
The translation core itself (parser, simplifier, translators, formatter)
lives in the `gcode2as` package, which is not under `src/`; where a claim
needs it, it is modelled from the specification and marked as such.

I/O performed by the driver is modelled as an explicit trace of effects
over an abstract `World` supplying the results of the external reads
(`locate` output, file contents, `options.ini` items, the mode table and
the modes' `execute`).  Python floats are modelled as rationals, and the
values a `ConfigParser` stores (always `str(value)` in the source) are
kept in parsed form, since every value the driver reads back was stored by
itself in the same run and `str`/`getfloat` round-trips.
-/

/-- Python whitespace, as stripped by `str.strip()` and matched by `\s`. -/
def pyIsSpace (c : Char) : Bool :=
  c == (' ') || c == ('\t') || c == ('\n') || c == ('\r') || c == ('\x0b') || c == ('\x0c')

/-- Remove the trailing run of characters satisfying `p` (right half of `str.strip`). -/
def dropTrailing (p : Char → Bool) : List Char → List Char
  | [] => []
  | c :: rest =>
      let r := dropTrailing p rest
      if r.isEmpty && p c then [] else c :: r

/-- Embedding of `str.strip()` on a line of characters. -/
def stripChars (l : List Char) : List Char :=
  dropTrailing pyIsSpace (l.dropWhile pyIsSpace)

/-- A value stored in a `ConfigParser` section.  The source stores `str(value)`
and reads values back with `get` / `getfloat` / `getboolean`; we keep the
parsed form of the stored string. -/
inductive PVal where
  | str (s : String)
  | num (q : ℚ)
  | bool (b : Bool)
deriving DecidableEq

/-- Lookup in a configuration section (association list, unique keys). -/
def getVal : List (String × PVal) → String → Option PVal
  | [], _ => none
  | p :: rest, k => if p.1 = k then some p.2 else getVal rest k

/-- Embedding of `config['DEFAULT'][key] = value`: replace in place or append. -/
def setKey : List (String × PVal) → String → PVal → List (String × PVal)
  | [], k, v => [(k, v)]
  | p :: rest, k, v => if p.1 = k then (k, v) :: rest else p :: setKey rest k v

def DEFAULT_MIN_DISTANCE : ℚ := 2

/-- Value 2.4 in the source; written via `mkRat` so that the kernel can evaluate it
(`Rat.ofScientific` does not reduce); `DEFAULT_LINE_WIDTH_eq` ties the two. -/
def DEFAULT_LINE_WIDTH : ℚ := mkRat 12 5

def DEFAULT_LAYER_HEIGHT : ℚ := 1

/-- Value 1.2 in the source, written via `mkRat` (see `DEFAULT_LINE_WIDTH`). -/
def DEFAULT_FIRST_LAYER_HEIGHT : ℚ := mkRat 6 5

def DEFAULT_USED_MATERIAL : ℚ := 0
def DEFAULT_PRINTING_TIME : ℚ := 0

theorem DEFAULT_LINE_WIDTH_eq : DEFAULT_LINE_WIDTH = 2.4 := by
  norm_num [DEFAULT_LINE_WIDTH, Rat.mkRat_eq_div]

theorem DEFAULT_FIRST_LAYER_HEIGHT_eq : DEFAULT_FIRST_LAYER_HEIGHT = 1.2 := by
  norm_num [DEFAULT_FIRST_LAYER_HEIGHT, Rat.mkRat_eq_div]

/-- The nine entries of `default_params` / `param_dict` in `cli`. -/
structure Params where
  mode : String
  min_dist : ℚ
  vase_mode : Bool
  welding_speed : ℚ
  inverted : Bool
  output : String
  line_width : ℚ
  layer_height : ℚ
  first_layer_height : ℚ
deriving DecidableEq

/-- Embedding of `default_params` of `cli` (lines 134-144 of `src/main.py`); the source
writes the welding speed as `30.0`. -/
def default_params : Params :=
  ⟨("Metal 3D Printing"), DEFAULT_MIN_DISTANCE, false, 30, false, ("./"),
    DEFAULT_LINE_WIDTH, DEFAULT_LAYER_HEIGHT, DEFAULT_FIRST_LAYER_HEIGHT⟩

/-- The CLI flags as parsed by click: flags default to `False`, the other
options to `None` when not given on the command line. -/
structure Flags where
  file : String
  d : Bool
  v : Bool
  mode : Option String
  min_dist : Option ℚ
  vase_mode : Option Bool
  welding_speed : Option ℚ
  inverted : Option Bool
  output : Option String
  line_width : Option ℚ
  layer_height : Option ℚ
  first_layer_height : Option ℚ
deriving DecidableEq

/-- Invoking the command with only the input file: click fills the defaults. -/
def emptyFlags (file : String) : Flags :=
  ⟨file, false, false, none, none, none, none, none, none, none, none, none⟩

/-- Python `x or default` on an optional string: `None` and `''` are falsy. -/
def pyOr (o : Option String) (dflt : String) : String :=
  match o with
  | some s => if s = ("") then dflt else s
  | none => dflt

/-- Embedding of `param_dict` of `cli` (lines 147-157): CLI value if supplied, else the
built-in default (`or` for the strings, `is not None` for the rest). -/
def param_dict (fl : Flags) : Params :=
  ⟨pyOr fl.mode default_params.mode,
   fl.min_dist.getD default_params.min_dist,
   fl.vase_mode.getD default_params.vase_mode,
   fl.welding_speed.getD default_params.welding_speed,
   fl.inverted.getD default_params.inverted,
   pyOr fl.output default_params.output,
   fl.line_width.getD default_params.line_width,
   fl.layer_height.getD default_params.layer_height,
   fl.first_layer_height.getD default_params.first_layer_height⟩

/-- Lookup in the parsed `options.ini` items (values already through `float`). -/
def lookupQ : List (String × ℚ) → String → Option ℚ
  | [], _ => none
  | p :: rest, k => if p.1 = k then some p.2 else lookupQ rest k

/-- Embedding of `update_parameters_based_on_input` (lines 61-72): an options.ini entry
replaces the incoming value for `layer_height`, `first_layer_height` and
`line_width`; `welding_speed` is returned unchanged. -/
def update_parameters_based_on_input (options : List (String × ℚ))
    (welding_speed line_width layer_height first_layer_height : ℚ) :
    ℚ × ℚ × ℚ × ℚ :=
  let layer_height := match lookupQ options ("layer_height") with
    | some q => q
    | none => layer_height
  let first_layer_height := match lookupQ options ("first_layer_height") with
    | some q => q
    | none => first_layer_height
  let line_width := match lookupQ options ("line_width") with
    | some q => q
    | none => line_width
  (welding_speed, line_width, layer_height, first_layer_height)

/-- The loop of lines 163-168 together with the loop in `update_parameters`:
every key of `param_dict` is written into the DEFAULT section (every key of
`default_params` is in `param_dict`, so the CLI-resolved value always wins). -/
def setAll (d : List (String × PVal)) (p : Params) : List (String × PVal) :=
  let d := setKey d ("mode") (.str p.mode)
  let d := setKey d ("min_dist") (.num p.min_dist)
  let d := setKey d ("vase_mode") (.bool p.vase_mode)
  let d := setKey d ("welding_speed") (.num p.welding_speed)
  let d := setKey d ("inverted") (.bool p.inverted)
  let d := setKey d ("output") (.str p.output)
  let d := setKey d ("line_width") (.num p.line_width)
  let d := setKey d ("layer_height") (.num p.layer_height)
  setKey d ("first_layer_height") (.num p.first_layer_height)

/-- Embedding of `update_parameters` (lines 41-47): updates the DEFAULT section with every
item of `param_dict`; the accompanying write of `input_parameters.txt` is
recorded as an effect in the driver's trace. -/
def update_parameters (config : List (String × PVal)) (p : Params) : List (String × PVal) :=
  setAll config p

/-- The string a `ConfigParser` holds for a stored value (`str(value)`). -/
def pvalStr : PVal → String
  | .str s => s
  | .num q => toString q
  | .bool b => if b then ("True") else ("False")

/-- Decimal digits to a number. -/
def digitsVal (l : List Char) : ℚ :=
  l.foldl (fun a c => 10 * a + ((c.toNat - (('0').toNat) : ℕ) : ℚ)) 0

/-- Python `float()` on a string: sign and decimal forms (exponents, `inf`,
`nan` and underscores are not modelled; no value of this driver uses them).
`none` means `float()` raises. -/
def pyParseFloat (s : String) : Option ℚ :=
  let l := stripChars s.toList
  let sl : ℚ × List Char := match l with
    | '-' :: r => (-1, r)
    | '+' :: r => (1, r)
    | _ => (1, l)
  let ip := sl.2.takeWhile Char.isDigit
  let rest := sl.2.dropWhile Char.isDigit
  match rest with
  | [] => if ip.isEmpty then none else some (sl.1 * digitsVal ip)
  | '.' :: fr =>
      let fp := fr.takeWhile Char.isDigit
      let rest2 := fr.dropWhile Char.isDigit
      if rest2.isEmpty && (!ip.isEmpty || !fp.isEmpty) then
        some (sl.1 * (digitsVal ip + digitsVal fp / (10 ^ fp.length)))
      else none
  | _ => none

/-- The `configparser` boolean states, as `getboolean` accepts them. -/
def pyParseBool (s : String) : Option Bool :=
  let t := s.toLower
  if t = ("1") || t = ("yes") || t = ("true") || t = ("on") then some true
  else if t = ("0") || t = ("no") || t = ("false") || t = ("off") then some false
  else none

/-- Embedding of `config.get('DEFAULT', k, fallback=fb)`. -/
def getStr (d : List (String × PVal)) (k fb : String) : String :=
  match getVal d k with
  | some v => pvalStr v
  | none => fb

/-- Embedding of `config.getfloat('DEFAULT', k, fallback=fb)`; `none` means it raises. -/
def getFloatRes (d : List (String × PVal)) (k : String) (fb : ℚ) : Option ℚ :=
  match getVal d k with
  | none => some fb
  | some (.num q) => some q
  | some (.str s) => pyParseFloat s
  | some (.bool _) => none

/-- Embedding of `config.getboolean('DEFAULT', k, fallback=fb)`; `none` means it raises.
Stored `str(True)` / `str(False)` parse back through `BOOLEAN_STATES`. -/
def getBoolRes (d : List (String × PVal)) (k : String) (fb : Bool) : Option Bool :=
  match getVal d k with
  | none => some fb
  | some (.bool b) => some b
  | some (.str s) => pyParseBool s
  | some (.num _) => none

/-- The component of a path after the last slash. -/
def lastComponent (l : List Char) : List Char :=
  (l.reverse.takeWhile (fun c => c != ('/'))).reverse

/-- Embedding of `pathlib.Path(s).stem`: final component without its last suffix. -/
def pathStem (s : String) : String :=
  let name := lastComponent s.toList
  match name.reverse.dropWhile (fun c => c != ('.')) with
  | [] => String.mk name
  | _ :: rest => if rest.isEmpty then String.mk name else String.mk rest.reverse

/-- Embedding of `pathlib.Path(s).parent` (the `absolute()` resolution is not modelled;
this branch is unreachable in the driver because `output` is always set). -/
def parentDir (s : String) : String :=
  match s.toList.reverse.dropWhile (fun c => c != ('/')) with
  | [] => (".")
  | _ :: rest => String.mk rest.reverse

/-- Embedding of `Path(out_dir).joinpath(...)` (path normalisation is not modelled; no
claim inspects the path text). -/
def joinPath (d f : String) : String := d ++ ("/") ++ f

/-- One observable I/O action of the driver, in program order. -/
inductive Effect where
  | runLocate
  | readParamsFile (path : String)
  | readOptionsIni
  | writeParamsStore
  | echo (msg : String)
  | executeMode (mode : String) (min_distance : ℚ) (verbose : Bool)
      (params : List (String × PVal))
  | writeOutput (path : String)
  | readStats (path : String)
  | postProcess (path : String)
      (welding_speed line_width layer_height first_layer_height : ℚ)
deriving DecidableEq

/-- Outcome of running a Python function: it either raises an uncaught
exception or returns, in both cases having produced a trace of effects. -/
inductive PyOutcome (α : Type) where
  | raised (trace : List Effect)
  | ok (val : α) (trace : List Effect)
deriving DecidableEq

def traceOf {α : Type} : PyOutcome α → List Effect
  | .raised tr => tr
  | .ok _ tr => tr

/-- The parsed content of a parameter file: `config.sections()` (the
non-DEFAULT section names) and the DEFAULT section items. -/
structure ConfigFile where
  sections : List String
  defaults : List (String × PVal)
deriving DecidableEq

/-- The ambient world the driver runs in: what `locate` prints (`none` if the
subprocess fails), what `config.read` finds at each path (`none` for a
missing/unreadable file, which leaves the parser without sections), the
parsed DEFAULT items of `options.ini`, the messages of the three mode
objects `[FDM(), Metal(), LaserCut()]` (assumed distinct, as dict keys), and
each mode's `execute`. -/
structure World where
  locate : Option String
  files : String → Option ConfigFile
  optionsIni : List (String × ℚ)
  modeMessages : List String
  execute : String → ℚ → Bool → List (String × PVal) → Option (List String)

def ripErrMsg (path : String) : String :=
  ("Error reading parameters from ") ++ path

/-- Embedding of `read_input_parameters` (lines 25-39).  The `file_path` argument is
immediately overwritten by the output of `locate input_parameters.txt`; that
subprocess call sits outside the `try` block, so its failure raises.  Inside
the `try`, a file that cannot be read leaves the parser without sections and
the raised `MissingSectionHeaderError` is caught: an error is printed and
`None` is returned. -/
def read_input_parameters (w : World) (file_path : String) : PyOutcome (Option ConfigFile) :=
  match w.locate with
  | none => .raised [.runLocate]
  | some path =>
      match w.files path with
      | none => .ok none [.runLocate, .readParamsFile path, .echo (ripErrMsg path)]
      | some cf =>
          if cf.sections.isEmpty then
            .ok none [.runLocate, .readParamsFile path, .echo (ripErrMsg path)]
          else
            .ok (some cf) [.runLocate, .readParamsFile path]

/-- Embedding of `parse_options_ini` (lines 49-59): the DEFAULT items of `options.ini`. -/
def parse_options_ini (w : World) : List (String × ℚ) := w.optionsIni

def invalidModeMsg (mode : String) (msgs : List String) : String :=
  ("Error: The selected mode '") ++ mode ++ ("' is not valid. Choose from: ")
    ++ String.intercalate (", ") msgs ++ (".")

/-- Embedding of `cli` (lines 102-262), as a trace-producing function over the world.
Notes kept faithful to the source: every `default_params` key is in
`param_dict`, so the loop of lines 163-168 always takes its `else` branch;
`update_parameters` re-writes the same values and saves the parameter store;
the `float(min_distance)` re-validation at lines 187-191 cannot raise
`ValueError` on a float and is a no-op; the `remove_semicolon_lines` call is
recorded as a `postProcess` effect carrying the header values of line 160,
its text transformation being the pure `remove_semicolon_lines` below. -/
def cli (w : World) (fl : Flags) : PyOutcome Unit :=
  match read_input_parameters w ("input_parameters.txt") with
  | .raised tr => .raised tr
  | .ok none tr => .ok () tr
  | .ok (some config) tr =>
      let tr := tr ++ [.readOptionsIni]
      let options := parse_options_ini w
      let p := param_dict fl
      let quad := update_parameters_based_on_input options p.welding_speed p.line_width
        p.layer_height p.first_layer_height
      let cfg1 := setAll config.defaults p
      let cfg2 := update_parameters cfg1 p
      let tr := tr ++ [.writeParamsStore]
      let mode := getStr cfg2 ("mode") default_params.mode
      match getFloatRes cfg2 ("min_dist") default_params.min_dist with
      | none => .raised tr
      | some min_distance =>
      match getBoolRes cfg2 ("use_different_output") false with
      | none => .raised tr
      | some _ =>
      let out_dir := match getVal cfg2 ("output") with
        | some vv => pvalStr vv
        | none => parentDir fl.file
      if mode ∉ w.modeMessages then
        .ok () (tr ++ [.echo (invalidModeMsg mode w.modeMessages)])
      else
        match w.execute mode min_distance fl.v cfg2 with
        | none => .ok () (tr ++ [.executeMode mode min_distance fl.v cfg2])
        | some _ =>
            let out_path := joinPath out_dir (pathStem fl.file ++ (".pg"))
            .ok () (tr ++ [.executeMode mode min_distance fl.v cfg2,
              .echo (("Saving generated file as ") ++ out_path),
              .writeOutput out_path,
              .readStats fl.file,
              .postProcess out_path quad.1 quad.2.1 quad.2.2.1 quad.2.2.2])

/-- Try to consume a literal from the front of a line (`none` = no match). -/
def dropLit : List Char → List Char → Option (List Char)
  | [], l => some l
  | _ :: _, [] => none
  | c :: cs, x :: xs => if x = c then dropLit cs xs else none

/-- The tail `\s*=\s*\S+` of the two regexes in `remove_semicolon_lines`. -/
def eqSignThenValue (r : List Char) : Bool :=
  match r.dropWhile pyIsSpace with
  | '=' :: r2 => !(r2.dropWhile pyIsSpace).isEmpty
  | _ => false

/-- The regex `^\t; layer_height\s*=\s*\S+` (line 227). -/
def layer_height_pattern (l : List Char) : Bool :=
  match dropLit (("\t; layer_height").toList) l with
  | some r => eqSignThenValue r
  | none => false

/-- The regex `^\t; first_layer_height\s*=\s*\S+` (line 228). -/
def first_layer_height_pattern (l : List Char) : Bool :=
  match dropLit (("\t; first_layer_height").toList) l with
  | some r => eqSignThenValue r
  | none => false

/-- The loop body of `remove_semicolon_lines` (lines 235-247) for one line:
the line kept as is, a cleaned replacement, or dropped. -/
def cleanLine (line : List Char) : Option (List Char) :=
  let stripped_line := stripChars line
  if (';') ∈ stripped_line then
    if layer_height_pattern stripped_line || first_layer_height_pattern stripped_line then
      some line
    else
      let cleaned_line := stripChars (stripped_line.takeWhile (fun c => c != (';')))
      if cleaned_line.isEmpty then none else some (cleaned_line ++ [('\n')])
  else
    some line

/-- The statistics dictionary produced by `parse_3d_printing_stats` and
passed to `remove_semicolon_lines` (a `None` field prints as `None`). -/
structure Stats where
  estimated_printing_time : Option String
  total_filament_cost : Option ℚ
  total_filament_used : Option ℚ
deriving DecidableEq

/-- Rendering of an interpolated number (the exact float spelling of Python
is immaterial to every claim; only the header's shape and count matter). -/
def pyShowQ (q : ℚ) : String := toString q

def pyShowOptS : Option String → String
  | some s => s
  | none => ("None")

def pyShowOptQ : Option ℚ → String
  | some q => pyShowQ q
  | none => ("None")

/-- Embedding of `header_lines` of `remove_semicolon_lines` (lines 216-224). -/
def header_lines (welding_speed line_width layer_height first_layer_height : ℚ)
    (stats : Stats) : List (List Char) :=
  [(("; Welding speed = ") ++ pyShowQ welding_speed ++ ("\n")).toList,
   (("; Line_width = ") ++ pyShowQ line_width ++ ("\n")).toList,
   (("; Layer_height = ") ++ pyShowQ layer_height ++ ("\n")).toList,
   (("; First_layer_height = ") ++ pyShowQ first_layer_height ++ ("\n")).toList,
   (("Estimated_printing_time = ") ++ pyShowOptS stats.estimated_printing_time ++ ("\n")).toList,
   (("Total_filament_cost = ") ++ pyShowOptQ stats.total_filament_cost ++ ("\n")).toList,
   (("Total_filament_used = ") ++ pyShowOptQ stats.total_filament_used ++ ("\n")).toList]

/-- Embedding of `remove_semicolon_lines` (lines 213-252) as a pure text transformation:
header lines first, then the cleaned lines in input order. -/
def remove_semicolon_lines (lines : List (List Char))
    (welding_speed line_width layer_height first_layer_height : ℚ) (stats : Stats) :
    List (List Char) :=
  header_lines welding_speed line_width layer_height first_layer_height stats
    ++ lines.filterMap cleanLine

/-- The per-line behaviour as the specification's words state it: on a line
containing a semicolon only the non-empty (trimmed) text before the first
semicolon is retained, and a line without a semicolon is preserved
unchanged. -/
def specClean (line : List Char) : Option (List Char) :=
  if (';') ∈ line then
    let kept := stripChars (line.takeWhile (fun c => c != (';')))
    if kept.isEmpty then none else some (kept ++ [('\n')])
  else
    some line

/-- A waypoint retained or considered by the path simplifier. -/
structure Waypoint where
  x : ℚ
  y : ℚ
  z : ℚ
  tool_active : Bool
deriving DecidableEq

/-- Squared Euclidean distance between waypoints. -/
def sqDist (a b : Waypoint) : ℚ :=
  (a.x - b.x) ^ 2 + (a.y - b.y) ^ 2 + (a.z - b.z) ^ 2

/-- Modelled from the spec: the greedy pass of `PathSimplifier` (spec 4.3),
whose code is in the `gcode2as` package and not under `src/`.  Walking the
remaining waypoints with the last retained point at hand, a waypoint is
retained when its tool state differs from the last retained point or from
the next waypoint (tool transitions are never merged away, and the last
waypoint of the sequence closes its run), or when its Euclidean distance to
the last retained point is not below the threshold `d`; the comparison
`dist < d` is expressed on squared distances, `0 < d ∧ sqDist < d * d`. -/
def simplifyFrom (d : ℚ) : Waypoint → List Waypoint → List Waypoint
  | _, [] => []
  | last, q :: rest =>
      let transition := (q.tool_active != last.tool_active)
        || (match rest with
            | [] => true
            | r :: _ => r.tool_active != q.tool_active)
      if transition || !(decide (0 < d) && decide (sqDist last q < d * d)) then
        q :: simplifyFrom d q rest
      else
        simplifyFrom d last rest

/-- Modelled from the spec: `PathSimplifier` (spec 4.3) on a waypoint
sequence; the first waypoint is always retained. -/
def pathSimplify (d : ℚ) : List Waypoint → List Waypoint
  | [] => []
  | p :: rest => p :: simplifyFrom d p rest


/-! Concrete worlds and flag sets used as evaluation inputs. -/

/-- A parameter file with one section and an empty DEFAULT section. -/
def cf0 : ConfigFile := ⟨[("SETTINGS")], []⟩

/-- A well-behaved world: `locate` finds the parameter file, `options.ini`
is empty, the three mode messages are available, `execute` succeeds. -/
def w0 : World :=
  ⟨some ("/data/input_parameters.txt"),
   fun p => if p = ("/data/input_parameters.txt") then some cf0 else none,
   [], [("FDM 3D Printing"), ("Metal 3D Printing"), ("Laser Cutting")],
   fun _ _ _ _ => some [("JMOVE")]⟩

/-- A bare invocation: only the input file is given. -/
def fl0 : Flags := emptyFlags ("model.gcode")

/-- Like `w0` but `options.ini` carries `line_width = 7`. -/
def w1 : World :=
  ⟨some ("/data/input_parameters.txt"),
   fun p => if p = ("/data/input_parameters.txt") then some cf0 else none,
   [(("line_width"), 7)], [("FDM 3D Printing"), ("Metal 3D Printing"), ("Laser Cutting")],
   fun _ _ _ _ => some [("JMOVE")]⟩

/-- Flags with `--line_width 5 --output out`. -/
def fl1 : Flags :=
  ⟨("model.gcode"), false, false, none, none, none, none, none, some ("out"), some 5, none, none⟩

/-- Flags with `--min_dist -1 --output out`. -/
def fl2 : Flags :=
  ⟨("model.gcode"), false, false, none, some (-1), none, none, none, some ("out"), none, none, none⟩

/-- Flags with `--mode Bogus`. -/
def fl5 : Flags :=
  ⟨("model.gcode"), false, false, some ("Bogus"), none, none, none, none, none, none, none, none⟩

/-- Like `w0` but the selected mode's `execute` returns `None`. -/
def w4 : World :=
  ⟨some ("/data/input_parameters.txt"),
   fun p => if p = ("/data/input_parameters.txt") then some cf0 else none,
   [], [("FDM 3D Printing"), ("Metal 3D Printing"), ("Laser Cutting")],
   fun _ _ _ _ => none⟩

/-- A world where the `locate` subprocess fails. -/
def wN : World := ⟨none, fun _ => none, [], [], fun _ _ _ _ => none⟩

/-- A parameter file without any section header. -/
def cfE : ConfigFile := ⟨[], []⟩

/-- A world where the located parameter file has no sections. -/
def wE : World :=
  ⟨some ("/data/input_parameters.txt"),
   fun p => if p = ("/data/input_parameters.txt") then some cfE else none,
   [], [], fun _ _ _ _ => none⟩

/-! Lemmas about configuration lookup after the update loops. -/

theorem getVal_setKey (d : List (String × PVal)) (k' k : String) (v : PVal) :
    getVal (setKey d k' v) k = if k' = k then some v else getVal d k := by
  induction d with
  | nil => simp [setKey, getVal]
  | cons p rest ih =>
      simp only [setKey]
      by_cases h1 : p.1 = k'
      · by_cases h2 : k' = k <;> simp [getVal, h1, h2]
      · simp only [if_neg h1, getVal]
        by_cases h3 : p.1 = k
        · have h2 : k' ≠ k := fun hc => h1 (h3.trans hc.symm)
          simp [h3, h2]
        · simp [h3, ih]

theorem getVal_setAll_mode (d : List (String × PVal)) (p : Params) :
    getVal (setAll d p) ("mode") = some (.str p.mode) := by
  simp [setAll, getVal_setKey]

theorem getVal_setAll_min_dist (d : List (String × PVal)) (p : Params) :
    getVal (setAll d p) ("min_dist") = some (.num p.min_dist) := by
  simp [setAll, getVal_setKey]

theorem getVal_setAll_output (d : List (String × PVal)) (p : Params) :
    getVal (setAll d p) ("output") = some (.str p.output) := by
  simp [setAll, getVal_setKey]

theorem getVal_setAll_line_width (d : List (String × PVal)) (p : Params) :
    getVal (setAll d p) ("line_width") = some (.num p.line_width) := by
  simp [setAll, getVal_setKey]

theorem getVal_setAll_welding_speed (d : List (String × PVal)) (p : Params) :
    getVal (setAll d p) ("welding_speed") = some (.num p.welding_speed) := by
  simp [setAll, getVal_setKey]

theorem getVal_setAll_udo (d : List (String × PVal)) (p : Params) :
    getVal (setAll d p) ("use_different_output") = getVal d ("use_different_output") := by
  simp [setAll, getVal_setKey]

/-! Lemmas about `strip`, the comment patterns and the cleaning pass. -/

theorem dropWhile_head_false (p : Char → Bool) :
    ∀ (l : List Char) (c : Char) (t : List Char), l.dropWhile p = c :: t → p c = false := by
  intro l
  induction l with
  | nil => intro c t h; simp [List.dropWhile] at h
  | cons a r ih =>
      intro c t h
      by_cases ha : p a
      · rw [List.dropWhile_cons_of_pos ha] at h
        exact ih c t h
      · rw [List.dropWhile_cons_of_neg ha] at h
        rw [← (List.cons.injEq a r c t).mp h |>.1]
        exact Bool.eq_false_iff.mpr ha

theorem dropTrailing_eq_nil (p : Char → Bool) :
    ∀ l : List Char, dropTrailing p l = [] → ∀ c ∈ l, p c = true := by
  intro l
  induction l with
  | nil => simp
  | cons a r ih =>
      intro h c hc
      simp only [dropTrailing] at h
      by_cases hcond : ((dropTrailing p r).isEmpty && p a) = true
      · simp only [Bool.and_eq_true] at hcond
        have h1 : (dropTrailing p r).isEmpty = true := hcond.1
        have h2 : p a = true := hcond.2
        rcases List.mem_cons.mp hc with hca | hcr
        · exact hca ▸ h2
        · exact ih (List.isEmpty_iff.mp h1) c hcr
      · rw [if_neg hcond] at h
        exact absurd h (List.cons_ne_nil _ _)

theorem dropTrailing_head (p : Char → Bool) (l : List Char) (c : Char) (t : List Char)
    (h : dropTrailing p l = c :: t) : ∃ r, l = c :: r := by
  cases l with
  | nil => simp [dropTrailing] at h
  | cons a r =>
      simp only [dropTrailing] at h
      by_cases hcond : ((dropTrailing p r).isEmpty && p a) = true
      · rw [if_pos hcond] at h
        exact absurd h.symm (List.cons_ne_nil _ _)
      · rw [if_neg hcond] at h
        exact ⟨r, by rw [((List.cons.injEq a _ c t).mp h).1]⟩

theorem stripChars_head_not_space (l : List Char) (c : Char) (t : List Char)
    (h : stripChars l = c :: t) : pyIsSpace c = false := by
  unfold stripChars at h
  obtain ⟨r, hr⟩ := dropTrailing_head pyIsSpace _ c t h
  exact dropWhile_head_false pyIsSpace l c r hr

theorem mem_dropWhile_iff (p : Char → Bool) (c : Char) (hc : p c = false) :
    ∀ l : List Char, c ∈ l.dropWhile p ↔ c ∈ l := by
  intro l
  induction l with
  | nil => simp
  | cons a r ih =>
      by_cases ha : p a
      · rw [List.dropWhile_cons_of_pos ha, ih]
        have : c ≠ a := fun hca => by rw [hca] at hc; rw [hc] at ha; exact Bool.false_ne_true ha
        simp [this]
      · rw [List.dropWhile_cons_of_neg ha]

theorem mem_dropTrailing_iff (p : Char → Bool) (c : Char) (hc : p c = false) :
    ∀ l : List Char, c ∈ dropTrailing p l ↔ c ∈ l := by
  intro l
  induction l with
  | nil => simp [dropTrailing]
  | cons a r ih =>
      simp only [dropTrailing]
      by_cases hcond : ((dropTrailing p r).isEmpty && p a) = true
      · rw [if_pos hcond]
        simp only [Bool.and_eq_true] at hcond
        have h1 : dropTrailing p r = [] := List.isEmpty_iff.mp hcond.1
        have h2 : p a = true := hcond.2
        have hca : c ≠ a := fun hca => by rw [hca] at hc; rw [hc] at h2; exact Bool.false_ne_true h2
        have hcr : c ∉ r := fun hmem => by
          have := dropTrailing_eq_nil p r h1 c hmem
          rw [hc] at this
          exact Bool.false_ne_true this
        simp [hca, hcr]
      · rw [if_neg hcond]
        simp [ih]

theorem mem_stripChars_iff (c : Char) (hc : pyIsSpace c = false) (l : List Char) :
    c ∈ stripChars l ↔ c ∈ l := by
  unfold stripChars
  rw [mem_dropTrailing_iff pyIsSpace c hc, mem_dropWhile_iff pyIsSpace c hc]

theorem dropLit_head (c : Char) (cs l r : List Char) (h : dropLit (c :: cs) l = some r) :
    ∃ t, l = c :: t := by
  cases l with
  | nil => simp [dropLit] at h
  | cons x xs =>
      simp only [dropLit] at h
      by_cases hx : x = c
      · exact ⟨xs, by rw [hx]⟩
      · rw [if_neg hx] at h
        exact absurd h (Option.noConfusion)

/-- The two regexes of `remove_semicolon_lines` are anchored at a leading tab,
but they are only ever matched against a `strip`ped line, whose first
character can never be whitespace: the preserving branch is unreachable. -/
theorem pattern_strip_false (l : List Char) :
    layer_height_pattern (stripChars l) = false
      ∧ first_layer_height_pattern (stripChars l) = false := by
  have hlit1 : (("\t; layer_height").toList) = ('\t') :: (("; layer_height").toList) := rfl
  have hlit2 : (("\t; first_layer_height").toList)
      = ('\t') :: (("; first_layer_height").toList) := rfl
  cases hs : stripChars l with
  | nil => exact ⟨by decide, by decide⟩
  | cons c t =>
      have hc : pyIsSpace c = false := stripChars_head_not_space l c t hs
      constructor
      · unfold layer_height_pattern
        rw [hlit1]
        cases hd : dropLit (('\t') :: (("; layer_height").toList)) (c :: t) with
        | none => rfl
        | some r =>
            obtain ⟨tt, htt⟩ := dropLit_head ('\t') _ _ r hd
            have hct : c = '\t' := (List.cons.injEq c t '\t' tt).mp htt |>.1
            rw [hct] at hc
            exact absurd hc (by decide)
      · unfold first_layer_height_pattern
        rw [hlit2]
        cases hd : dropLit (('\t') :: (("; first_layer_height").toList)) (c :: t) with
        | none => rfl
        | some r =>
            obtain ⟨tt, htt⟩ := dropLit_head ('\t') _ _ r hd
            have hct : c = '\t' := (List.cons.injEq c t '\t' tt).mp htt |>.1
            rw [hct] at hc
            exact absurd hc (by decide)

theorem takeWhile_dropWhile_comm (l : List Char) :
    (l.dropWhile pyIsSpace).takeWhile (fun c => c != (';'))
      = (l.takeWhile (fun c => c != (';'))).dropWhile pyIsSpace := by
  induction l with
  | nil => rfl
  | cons a r ih =>
      by_cases hsemi : a = (';')
      · simp [List.dropWhile_cons, List.takeWhile_cons, hsemi, pyIsSpace]
      · have hfa : (a != (';')) = true := by simp [hsemi]
        by_cases ha : pyIsSpace a = true
        · simp [List.dropWhile_cons, List.takeWhile_cons, ha, hfa, ih]
        · simp [List.dropWhile_cons, List.takeWhile_cons, ha, hfa, ih]

theorem takeWhile_dropTrailing (m : List Char) (h : (';') ∈ m) :
    (dropTrailing pyIsSpace m).takeWhile (fun c => c != (';'))
      = m.takeWhile (fun c => c != (';')) := by
  induction m with
  | nil => simp at h
  | cons a r ih =>
      simp only [dropTrailing]
      by_cases hasemi : a = (';')
      · have ha : pyIsSpace a = false := by rw [hasemi]; decide
        have hcond : ((dropTrailing pyIsSpace r).isEmpty && pyIsSpace a) = false := by
          simp [ha]
        rw [if_neg (by simp [hcond])]
        simp [List.takeWhile_cons, hasemi]
      · have hsr : (';') ∈ r := by
          rcases List.mem_cons.mp h with h1 | h2
          · exact absurd h1.symm hasemi
          · exact h2
        have hcond : ((dropTrailing pyIsSpace r).isEmpty && pyIsSpace a) = false := by
          by_cases he : (dropTrailing pyIsSpace r).isEmpty = true
          · exfalso
            have hnil : dropTrailing pyIsSpace r = [] := List.isEmpty_iff.mp he
            have hsp := dropTrailing_eq_nil pyIsSpace r hnil (';') hsr
            exact absurd hsp (by decide)
          · simp only [Bool.not_eq_true] at he
            simp [he]
        rw [if_neg (by simp [hcond])]
        have hfa : (a != (';')) = true := by simp [hasemi]
        simp [List.takeWhile_cons, hfa, ih hsr]

theorem dropWhile_dropWhile (p : Char → Bool) (l : List Char) :
    (l.dropWhile p).dropWhile p = l.dropWhile p := by
  induction l with
  | nil => rfl
  | cons a r ih =>
      by_cases ha : p a
      · rw [List.dropWhile_cons_of_pos ha, ih]
      · rw [List.dropWhile_cons_of_neg ha, List.dropWhile_cons_of_neg ha]

theorem strip_takeWhile_strip (line : List Char) (h : (';') ∈ line) :
    stripChars ((stripChars line).takeWhile (fun c => c != (';')))
      = stripChars (line.takeWhile (fun c => c != (';'))) := by
  unfold stripChars
  have hsemi_dw : (';') ∈ line.dropWhile pyIsSpace :=
    (mem_dropWhile_iff pyIsSpace (';') (by decide) line).mpr h
  rw [takeWhile_dropTrailing _ hsemi_dw, takeWhile_dropWhile_comm, dropWhile_dropWhile]

theorem cleanLine_eq_specClean (line : List Char) : cleanLine line = specClean line := by
  unfold cleanLine specClean
  by_cases h : (';') ∈ line
  · have h2 : (';') ∈ stripChars line := (mem_stripChars_iff (';') (by decide) line).mpr h
    rw [if_pos h2, if_pos h]
    have hpat := pattern_strip_false line
    simp [hpat.1, hpat.2, strip_takeWhile_strip line h]
  · have h2 : (';') ∉ stripChars line := fun hm => h ((mem_stripChars_iff (';') (by decide) line).mp hm)
    rw [if_neg h2, if_neg h]

theorem remove_semicolon_lines_eq (lines : List (List Char))
    (ws lw lh flh : ℚ) (stats : Stats) :
    remove_semicolon_lines lines ws lw lh flh stats
      = header_lines ws lw lh flh stats ++ lines.filterMap specClean := by
  unfold remove_semicolon_lines
  rw [funext cleanLine_eq_specClean]

theorem mem_takeWhile_sat (f : Char → Bool) :
    ∀ (l : List Char) (c : Char), c ∈ l.takeWhile f → f c = true := by
  intro l
  induction l with
  | nil => simp
  | cons a r ih =>
      intro c hc
      by_cases ha : f a
      · rw [List.takeWhile_cons_of_pos ha] at hc
        rcases List.mem_cons.mp hc with h1 | h2
        · exact h1 ▸ ha
        · exact ih c h2
      · rw [List.takeWhile_cons_of_neg ha] at hc
        simp at hc

theorem specClean_no_semicolon (a o : List Char) (h : specClean a = some o) : (';') ∉ o := by
  unfold specClean at h
  by_cases hm : (';') ∈ a
  · rw [if_pos hm] at h
    by_cases he : (stripChars (a.takeWhile (fun c => c != (';')))).isEmpty
    · simp [he] at h
    · simp [he] at h
      intro hmem
      rw [← h] at hmem
      rcases List.mem_append.mp hmem with h1 | h2
      · have h3 : (';') ∈ a.takeWhile (fun c => c != (';')) :=
          (mem_stripChars_iff (';') (by decide) _).mp h1
        have := mem_takeWhile_sat _ _ _ h3
        simp at this
      · simp at h2
  · rw [if_neg hm] at h
    exact (Option.some.inj h) ▸ hm

/-- C7: the final post-processing pass `remove_semicolon_lines` injects the
metadata header (welding speed, line width, layer heights and the scraped
printing statistics) at the top of the output, and strips stray comments
line by line, in order: a line containing a semicolon keeps only the
non-empty trimmed text before its first semicolon (and is dropped when that
text is empty), while a line without a semicolon is preserved unchanged. -/
theorem remove_semicolon_lines_correct (lines : List (List Char))
    (ws lw lh flh : ℚ) (stats : Stats) :
    remove_semicolon_lines lines ws lw lh flh stats
      = header_lines ws lw lh flh stats ++ lines.filterMap specClean
    ∧ (∀ l, (';') ∉ l → specClean l = some l) := by
  refine ⟨remove_semicolon_lines_eq lines ws lw lh flh stats, ?_⟩
  intro l hl
  simp [specClean, hl]

theorem c7_witness :
    remove_semicolon_lines ([(("G1 X0 ; move").toList), (("\t; layer_height = 0.2\n").toList)])
        30 2 1 1 (Stats.mk none none none)
      = header_lines 30 2 1 1 (Stats.mk none none none)
        ++ [(("G1 X0").toList ++ [('\n')])]
    ∧ specClean (("G28\n").toList) = some ((("G28\n").toList)) := by
  constructor
  · rw [(remove_semicolon_lines_correct _ 30 2 1 1 (Stats.mk none none none)).1]
    exact congrArg (fun x => header_lines 30 2 1 1 (Stats.mk none none none) ++ x) (by decide)
  · exact (remove_semicolon_lines_correct [] 1 1 1 1 (Stats.mk none none none)).2
      ((("G28\n").toList)) (by decide)

/-- C10: the branch of `remove_semicolon_lines` meant to preserve
`\t; layer_height = ...` and `\t; first_layer_height = ...` comment lines is
unreachable, because each line is whitespace-stripped before being matched
against the tab-anchored patterns; consequently every non-header line of the
post-processed output (everything after the 7 header lines) contains no
semicolon. -/
theorem pattern_branch_unreachable :
    (∀ l : List Char, layer_height_pattern (stripChars l) = false
        ∧ first_layer_height_pattern (stripChars l) = false)
    ∧ (∀ (lines : List (List Char)) (ws lw lh flh : ℚ) (stats : Stats) (l : List Char),
        l ∈ (remove_semicolon_lines lines ws lw lh flh stats).drop 7 → (';') ∉ l) := by
  constructor
  · exact pattern_strip_false
  · intro lines ws lw lh flh stats l hl
    rw [remove_semicolon_lines_eq] at hl
    have hlen : (header_lines ws lw lh flh stats).length = 7 := rfl
    rw [← hlen, List.drop_left] at hl
    obtain ⟨a, ha, hs⟩ := List.mem_filterMap.mp hl
    exact specClean_no_semicolon a l hs

theorem c10_witness :
    layer_height_pattern (stripChars (("\t; layer_height = 0.2").toList)) = false
    ∧ (';') ∉ ((("G1 X0").toList) ++ [('\n')]) := by
  constructor
  · exact (pattern_branch_unreachable.1 ((("\t; layer_height = 0.2").toList))).1
  · exact pattern_branch_unreachable.2 ([(("G1 X0 ; move").toList)]) 1 1 1 1
      (Stats.mk none none none) ((("G1 X0").toList) ++ [('\n')]) (by decide)

/-! The driver's behaviour on the main paths, as trace equalities. -/

set_option maxHeartbeats 4000000 in
/-- C3 (amended): the configuration passed to translation is resolved once
before `execute` and handed over explicitly (the `executeMode` effect carries
the fully resolved section); however, resolving it reads ambient state — the
parameter file is found by running `locate input_parameters.txt`, ignoring
the given path — and the merged parameters are written back to the persisted
store `input_parameters.txt` before translation starts. -/
theorem cli_config_resolution_trace (w : World) (fl : Flags) (path : String) (cf : ConfigFile)
    (ls : List String)
    (hL : w.locate = some path) (hF : w.files path = some cf)
    (hS : cf.sections.isEmpty = false)
    (hU : getVal cf.defaults ("use_different_output") = none)
    (hM : (param_dict fl).mode ∈ w.modeMessages)
    (hE : w.execute (param_dict fl).mode (param_dict fl).min_dist fl.v
        (update_parameters (setAll cf.defaults (param_dict fl)) (param_dict fl)) = some ls) :
    cli w fl = .ok () ([.runLocate, .readParamsFile path, .readOptionsIni, .writeParamsStore,
      .executeMode (param_dict fl).mode (param_dict fl).min_dist fl.v
        (update_parameters (setAll cf.defaults (param_dict fl)) (param_dict fl)),
      .echo (("Saving generated file as ")
        ++ joinPath (param_dict fl).output (pathStem fl.file ++ (".pg"))),
      .writeOutput (joinPath (param_dict fl).output (pathStem fl.file ++ (".pg"))),
      .readStats fl.file,
      .postProcess (joinPath (param_dict fl).output (pathStem fl.file ++ (".pg")))
        (update_parameters_based_on_input w.optionsIni (param_dict fl).welding_speed
          (param_dict fl).line_width (param_dict fl).layer_height
          (param_dict fl).first_layer_height).1
        (update_parameters_based_on_input w.optionsIni (param_dict fl).welding_speed
          (param_dict fl).line_width (param_dict fl).layer_height
          (param_dict fl).first_layer_height).2.1
        (update_parameters_based_on_input w.optionsIni (param_dict fl).welding_speed
          (param_dict fl).line_width (param_dict fl).layer_height
          (param_dict fl).first_layer_height).2.2.1
        (update_parameters_based_on_input w.optionsIni (param_dict fl).welding_speed
          (param_dict fl).line_width (param_dict fl).layer_height
          (param_dict fl).first_layer_height).2.2.2]) := by
  have hE' : w.execute (param_dict fl).mode (param_dict fl).min_dist fl.v
      (setAll (setAll cf.defaults (param_dict fl)) (param_dict fl)) = some ls := hE
  simp only [cli, read_input_parameters, update_parameters, parse_options_ini, hL, hF, hS,
    getStr, getFloatRes, getBoolRes, getVal_setAll_mode, getVal_setAll_min_dist,
    getVal_setAll_udo, getVal_setAll_output, hU, pvalStr, hM, hE', not_true,
    Bool.false_eq_true, if_false]
  simp

set_option maxHeartbeats 4000000 in
/-- C4: when the selected mode's `execute` returns no instruction sequence,
the run returns immediately after the `execute` call: no output file is
written and no post-processing happens, so no partial program is left on
disk by the driver. -/
theorem cli_aborts_without_output (w : World) (fl : Flags) (path : String) (cf : ConfigFile)
    (hL : w.locate = some path) (hF : w.files path = some cf)
    (hS : cf.sections.isEmpty = false)
    (hU : getVal cf.defaults ("use_different_output") = none)
    (hM : (param_dict fl).mode ∈ w.modeMessages)
    (hE : w.execute (param_dict fl).mode (param_dict fl).min_dist fl.v
        (update_parameters (setAll cf.defaults (param_dict fl)) (param_dict fl)) = none) :
    cli w fl = .ok () ([.runLocate, .readParamsFile path, .readOptionsIni, .writeParamsStore,
      .executeMode (param_dict fl).mode (param_dict fl).min_dist fl.v
        (update_parameters (setAll cf.defaults (param_dict fl)) (param_dict fl))])
    ∧ (∀ s, Effect.writeOutput s ∉ traceOf (cli w fl))
    ∧ (∀ s a b c e, Effect.postProcess s a b c e ∉ traceOf (cli w fl)) := by
  have hE' : w.execute (param_dict fl).mode (param_dict fl).min_dist fl.v
      (setAll (setAll cf.defaults (param_dict fl)) (param_dict fl)) = none := hE
  have h1 : cli w fl = .ok () ([.runLocate, .readParamsFile path, .readOptionsIni,
      .writeParamsStore,
      .executeMode (param_dict fl).mode (param_dict fl).min_dist fl.v
        (update_parameters (setAll cf.defaults (param_dict fl)) (param_dict fl))]) := by
    simp only [cli, read_input_parameters, update_parameters, parse_options_ini, hL, hF, hS,
      getStr, getFloatRes, getBoolRes, getVal_setAll_mode, getVal_setAll_min_dist,
      getVal_setAll_udo, getVal_setAll_output, hU, pvalStr, hM, hE', not_true,
      Bool.false_eq_true, if_false]
    simp
  refine ⟨h1, ?_, ?_⟩
  · intro s
    simp [h1, traceOf]
  · intro s a b c e
    simp [h1, traceOf]

set_option maxHeartbeats 4000000 in
/-- C5 (amended): for a resolved mode value that is not among the recognized
modes, the driver echoes the invalid mode together with the set of valid
choices and returns before translation: `execute` is never invoked and no
output file is written — though the merged parameters have already been
written back to `input_parameters.txt` (a `writeParamsStore` effect precedes
the error message). -/
theorem cli_invalid_mode (w : World) (fl : Flags) (path : String) (cf : ConfigFile)
    (hL : w.locate = some path) (hF : w.files path = some cf)
    (hS : cf.sections.isEmpty = false)
    (hU : getVal cf.defaults ("use_different_output") = none)
    (hM : (param_dict fl).mode ∉ w.modeMessages) :
    cli w fl = .ok () ([.runLocate, .readParamsFile path, .readOptionsIni, .writeParamsStore,
      .echo (invalidModeMsg (param_dict fl).mode w.modeMessages)])
    ∧ (∀ m md vb pr, Effect.executeMode m md vb pr ∉ traceOf (cli w fl))
    ∧ (∀ s, Effect.writeOutput s ∉ traceOf (cli w fl)) := by
  have h1 : cli w fl = .ok () ([.runLocate, .readParamsFile path, .readOptionsIni,
      .writeParamsStore, .echo (invalidModeMsg (param_dict fl).mode w.modeMessages)]) := by
    simp only [cli, read_input_parameters, update_parameters, parse_options_ini, hL, hF, hS,
      getStr, getFloatRes, getBoolRes, getVal_setAll_mode, getVal_setAll_min_dist,
      getVal_setAll_udo, getVal_setAll_output, hU, pvalStr, hM, not_true,
      Bool.false_eq_true, if_false]
    simp
  refine ⟨h1, ?_, ?_⟩
  · intro m md vb pr
    simp [h1, traceOf]
  · intro s
    simp [h1, traceOf]

/-- C1 (amended): CLI flags take precedence over the parameter file and the
built-in defaults, and the configuration passed to `execute` carries the
CLI-resolved values (`min_dist`, `mode`, `line_width` shown); `welding_speed`
in the metadata header also follows the CLI; but for the header's
`line_width` (and likewise `layer_height`, `first_layer_height`) a value
present in `options.ini` overrides the CLI flag, and the CLI value only
survives into the header when `options.ini` does not carry the key. -/
theorem cli_precedence (d : List (String × PVal)) (fl : Flags) (opts : List (String × ℚ)) :
    (∀ q, fl.min_dist = some q →
      getVal (update_parameters (setAll d (param_dict fl)) (param_dict fl)) ("min_dist")
        = some (.num q))
    ∧ (∀ m, fl.mode = some m → m ≠ ("") →
      getVal (update_parameters (setAll d (param_dict fl)) (param_dict fl)) ("mode")
        = some (.str m))
    ∧ (∀ q, fl.line_width = some q →
      getVal (update_parameters (setAll d (param_dict fl)) (param_dict fl)) ("line_width")
        = some (.num q))
    ∧ (∀ q, fl.welding_speed = some q →
      (update_parameters_based_on_input opts (param_dict fl).welding_speed
        (param_dict fl).line_width (param_dict fl).layer_height
        (param_dict fl).first_layer_height).1 = q)
    ∧ (∀ q, lookupQ opts ("line_width") = some q →
      (update_parameters_based_on_input opts (param_dict fl).welding_speed
        (param_dict fl).line_width (param_dict fl).layer_height
        (param_dict fl).first_layer_height).2.1 = q)
    ∧ (∀ q, lookupQ opts ("line_width") = none → fl.line_width = some q →
      (update_parameters_based_on_input opts (param_dict fl).welding_speed
        (param_dict fl).line_width (param_dict fl).layer_height
        (param_dict fl).first_layer_height).2.1 = q) := by
  refine ⟨?_, ?_, ?_, ?_, ?_, ?_⟩
  · intro q h
    simp [update_parameters, getVal_setAll_min_dist, param_dict, h]
  · intro m h h2
    simp [update_parameters, getVal_setAll_mode, param_dict, pyOr, h, h2]
  · intro q h
    simp [update_parameters, getVal_setAll_line_width, param_dict, h]
  · intro q h
    simp [update_parameters_based_on_input, param_dict, h]
  · intro q h
    simp [update_parameters_based_on_input, h]
  · intro q h h2
    simp [update_parameters_based_on_input, h, param_dict, h2]

theorem c1_witness :
    getVal (update_parameters (setAll [] (param_dict fl2)) (param_dict fl2)) ("min_dist")
      = some (PVal.num (-1)) :=
  (cli_precedence [] fl2 []).1 (-1) rfl

theorem c1_cex : fl1.line_width = some 5
    ∧ Effect.postProcess (("out/model.pg")) 30 7 1 DEFAULT_FIRST_LAYER_HEIGHT
        ∈ traceOf (cli w1 fl1)
    ∧ Effect.postProcess (("out/model.pg")) 30 5 1 DEFAULT_FIRST_LAYER_HEIGHT
        ∉ traceOf (cli w1 fl1) := by
  decide

/-- C2 (code bug): with `--min_dist -1` the run does not fail: the vacuous
validation block (a `float()` call on an already-float value) accepts the
negative threshold, the selected mode's `execute` is invoked with
`min_distance = -1`, and the output file is written. -/
theorem c2_negative_min_dist :
    fl2.min_dist = some (-1)
    ∧ Effect.executeMode (("Metal 3D Printing")) (-1) false
        (update_parameters (setAll cf0.defaults (param_dict fl2)) (param_dict fl2))
        ∈ traceOf (cli w0 fl2)
    ∧ Effect.writeOutput (("out/model.pg")) ∈ traceOf (cli w0 fl2) := by
  decide

theorem c3_cex : Effect.runLocate ∈ traceOf (cli w0 fl0)
    ∧ Effect.writeParamsStore ∈ traceOf (cli w0 fl0) := by
  decide

theorem c3_witness : traceOf (cli w0 fl0) = [Effect.runLocate,
    Effect.readParamsFile ("/data/input_parameters.txt"), Effect.readOptionsIni,
    Effect.writeParamsStore,
    Effect.executeMode (("Metal 3D Printing")) 2 false
      (update_parameters (setAll cf0.defaults (param_dict fl0)) (param_dict fl0)),
    Effect.echo (("Saving generated file as .//model.pg")),
    Effect.writeOutput ((".//model.pg")), Effect.readStats (("model.gcode")),
    Effect.postProcess ((".//model.pg")) 30 DEFAULT_LINE_WIDTH 1 DEFAULT_FIRST_LAYER_HEIGHT] := by
  rw [cli_config_resolution_trace w0 fl0 ("/data/input_parameters.txt") cf0 ([("JMOVE")])
    (by decide) (by decide) (by decide) (by decide) (by decide) (by decide)]
  decide

theorem c4_witness : Effect.writeOutput ((".//model.pg")) ∉ traceOf (cli w4 fl0) :=
  (cli_aborts_without_output w4 fl0 ("/data/input_parameters.txt") cf0
    (by decide) (by decide) (by decide) (by decide) (by decide) (by decide)).2.1
    ((".//model.pg"))

theorem c5_witness : Effect.writeOutput (("x")) ∉ traceOf (cli w0 fl5) :=
  (cli_invalid_mode w0 fl5 ("/data/input_parameters.txt") cf0
    (by decide) (by decide) (by decide) (by decide) (by decide)).2.2 (("x"))

theorem c5_cex : Effect.writeParamsStore ∈ traceOf (cli w0 fl5)
    ∧ Effect.echo (invalidModeMsg (("Bogus")) w0.modeMessages) ∈ traceOf (cli w0 fl5) := by
  decide

/-- C6 (amended): for every configuration field omitted by the caller, the
resolved default matches the spec: `min_dist = 2`, `vase_mode = false`,
`welding_speed = 30.0`, `inverted = false`, `line_width = 2.4`,
`layer_height = 1`, `first_layer_height = 1.2`, `output = "./"` and verbose
off; the default mode, however, is the literal string
"Metal 3D Printing" (the Metal mode's CLI message), not one of
"FDM" | "Metal" | "LaserCut". -/
theorem resolved_defaults (fl : Flags) :
    (fl.min_dist = none → (param_dict fl).min_dist = 2)
    ∧ (fl.vase_mode = none → (param_dict fl).vase_mode = false)
    ∧ (fl.welding_speed = none → (param_dict fl).welding_speed = 30)
    ∧ (fl.inverted = none → (param_dict fl).inverted = false)
    ∧ (fl.line_width = none → (param_dict fl).line_width = 2.4)
    ∧ (fl.layer_height = none → (param_dict fl).layer_height = 1)
    ∧ (fl.first_layer_height = none → (param_dict fl).first_layer_height = 1.2)
    ∧ (fl.mode = none → (param_dict fl).mode = ("Metal 3D Printing"))
    ∧ (fl.output = none → (param_dict fl).output = ("./"))
    ∧ (∀ s, (emptyFlags s).v = false ∧ (emptyFlags s).d = false) := by
  refine ⟨?_, ?_, ?_, ?_, ?_, ?_, ?_, ?_, ?_, ?_⟩ <;> intro h
  · simp [param_dict, default_params, h, DEFAULT_MIN_DISTANCE]
  · simp [param_dict, default_params, h]
  · simp [param_dict, default_params, h]
  · simp [param_dict, default_params, h]
  · simp [param_dict, default_params, h, DEFAULT_LINE_WIDTH_eq]
  · simp [param_dict, default_params, h, DEFAULT_LAYER_HEIGHT]
  · simp [param_dict, default_params, h, DEFAULT_FIRST_LAYER_HEIGHT_eq]
  · simp [param_dict, default_params, h, pyOr]
  · simp [param_dict, default_params, h, pyOr]
  · simp [emptyFlags]

theorem c6_witness : (param_dict (emptyFlags (("m.gcode")))).min_dist = 2 :=
  (resolved_defaults (emptyFlags (("m.gcode")))).1 rfl

theorem c6_cex : (param_dict (emptyFlags (("m.gcode")))).mode = ("Metal 3D Printing")
    ∧ (param_dict (emptyFlags (("m.gcode")))).mode
        ∉ (["FDM", "Metal", "LaserCut"] : List String) := by
  decide

/-- C8 (spec-modelled): with a non-positive minimum-distance threshold — in
particular `min_distance = 0` — the path simplifier is a pass-through: the
output equals the input and in particular the waypoint counts agree. -/
theorem pathSimplify_passthrough (d : ℚ) (pts : List Waypoint) (h : d ≤ 0) :
    pathSimplify d pts = pts ∧ (pathSimplify d pts).length = pts.length := by
  have hd : decide (0 < d) = false := decide_eq_false (not_lt.mpr h)
  have key : ∀ (last : Waypoint) (l : List Waypoint), simplifyFrom d last l = l := by
    intro last l
    induction l generalizing last with
    | nil => rfl
    | cons q rest ih => simp [simplifyFrom, hd, ih]
  have h1 : pathSimplify d pts = pts := by
    cases pts with
    | nil => rfl
    | cons p rest => simp [pathSimplify, key]
  exact ⟨h1, by rw [h1]⟩

theorem c8_witness :
    pathSimplify 0 ([⟨0, 0, 0, true⟩, ⟨1, 0, 0, true⟩])
        = [⟨0, 0, 0, true⟩, ⟨1, 0, 0, true⟩]
    ∧ (pathSimplify 0 ([⟨0, 0, 0, true⟩, ⟨1, 0, 0, true⟩])).length
        = ([⟨0, 0, 0, true⟩, ⟨1, 0, 0, true⟩] : List Waypoint).length :=
  pathSimplify_passthrough 0 _ (le_refl 0)

/-- C9 (amended): `read_input_parameters` ignores its `file_path` argument
entirely — the path actually read is whatever `locate input_parameters.txt`
printed; when the located file cannot be read or has no sections, the caught
exception turns into an error print and a `None` return, upon which `cli`
returns silently; but a failure of the `locate` subprocess itself is raised
out of the function, not turned into `None`. -/
theorem read_input_parameters_behaviour :
    (∀ (w : World) (p₁ p₂ : String), read_input_parameters w p₁ = read_input_parameters w p₂)
    ∧ (∀ (w : World) (path : String), w.locate = some path →
        Effect.readParamsFile path ∈ traceOf (read_input_parameters w ("input_parameters.txt")))
    ∧ (∀ (w : World) (path : String) (cf : ConfigFile), w.locate = some path →
        w.files path = some cf → cf.sections.isEmpty = true →
        read_input_parameters w ("input_parameters.txt")
          = .ok none [.runLocate, .readParamsFile path, .echo (ripErrMsg path)])
    ∧ (∀ (w : World) (fl : Flags) (path : String) (cf : ConfigFile), w.locate = some path →
        w.files path = some cf → cf.sections.isEmpty = true →
        cli w fl = .ok () ([.runLocate, .readParamsFile path, .echo (ripErrMsg path)])) := by
  refine ⟨?_, ?_, ?_, ?_⟩
  · intro w p₁ p₂
    rfl
  · intro w path h
    cases hf : w.files path with
    | none => simp [read_input_parameters, h, hf, traceOf]
    | some cf =>
        by_cases hs : cf.sections.isEmpty <;>
          simp [read_input_parameters, h, hf, hs, traceOf]
  · intro w path cf h hf hs
    simp [read_input_parameters, h, hf, hs]
  · intro w fl path cf h hf hs
    simp [cli, read_input_parameters, h, hf, hs]

theorem c9_witness : cli wE (emptyFlags (("m.gcode")))
    = .ok () ([Effect.runLocate, Effect.readParamsFile ("/data/input_parameters.txt"),
        Effect.echo (ripErrMsg ("/data/input_parameters.txt"))]) :=
  read_input_parameters_behaviour.2.2.2 wE (emptyFlags (("m.gcode")))
    ("/data/input_parameters.txt") cfE (by decide) (by decide) (by decide)

theorem c9_cex : read_input_parameters wN (("input_parameters.txt")) = .raised [Effect.runLocate]
    ∧ cli wN (emptyFlags (("m.gcode"))) = .raised [Effect.runLocate] := by
  decide
